import Mathlib

/-!
Verification of the ctd-tools reader module, src/ctd_tools/modules/reader.py,
against its natural-language specification.

Shallow embedding conventions: xarray datasets are modelled by their lists of
variable names together with per-variable value lists; Python dicts by
insertion-ordered association lists; datetimes by integer or rational counts
of seconds (or nanoseconds) on a fixed monotone scale; fallible code by
Except String. Python string truthiness (a string is falsy exactly when it is
empty) is modelled by explicit emptiness tests where the source relies on it.
-/

/-- Modelled from the spec: canonical key for the time coordinate in the
missing ctd_parameters module. The value time is also pinned down by the
source, which uses the literal string time interchangeably with the constant. -/
def ctdparams.TIME : String := "time"

/-- Modelled from the spec: canonical key of the Julian day-of-year time
channel in the missing ctd_parameters module. Only nonemptiness and
distinctness from the other keys matter below. -/
def ctdparams.TIME_J : String := "timeJ"

/-- Modelled from the spec: canonical key of the elapsed-seconds-since-2000
time channel in the missing ctd_parameters module. -/
def ctdparams.TIME_Q : String := "timeQ"

/-- Modelled from the spec: canonical key of the elapsed-seconds-since-1970
time channel in the missing ctd_parameters module. -/
def ctdparams.TIME_N : String := "timeN"

/-- Modelled from the spec: canonical key of the elapsed-seconds-since-offset
time channel in the missing ctd_parameters module. -/
def ctdparams.TIME_S : String := "timeS"

/-- Modelled from the spec: canonical key for pressure. The value is pinned
down by the source, which accesses the renamed pressure variable with the
literal string pressure. -/
def ctdparams.PRESSURE : String := "pressure"

/-- Modelled from the spec: canonical key for depth. -/
def ctdparams.DEPTH : String := "depth"

/-- Modelled from the spec: canonical key for temperature. -/
def ctdparams.TEMPERATURE : String := "temperature"

/-- Modelled from the spec: canonical key for salinity. -/
def ctdparams.SALINITY : String := "salinity"

/-- Modelled from the spec: canonical key for conductivity. -/
def ctdparams.CONDUCTIVITY : String := "conductivity"

/-- Modelled from the spec: canonical key for latitude. -/
def ctdparams.LATITUDE : String := "latitude"

/-- Modelled from the spec: canonical key for longitude. -/
def ctdparams.LONGITUDE : String := "longitude"

/-- Modelled from the spec: canonical key for speed of sound, target of the
TOB rename of the SOUND column. -/
def ctdparams.SPEED_OF_SOUND : String := "speed_of_sound"

/-- Modelled from the spec: canonical key for the power supply input voltage,
target of the TOB rename of the Vbatt column. -/
def ctdparams.POWER_SUPPLY_INPUT_VOLTAGE : String := "power_supply_input_voltage"

/-- Embedding of AbstractReader._validate_necessary_parameters exactly as the
source writes it. In Python the first condition parses as
(not TIME) and (not TIME_J) and (not TIME_Q) and (TIME_N not in data),
where not s on a string tests emptiness, and the second condition parses as
(PRESSURE not in data) and (not DEPTH). The membership domain is the key set
of the data argument, modelled as the list of its keys. -/
def validate_necessary_parameters (data : List String) (entity : String) :
    Except String Unit :=
  if ctdparams.TIME = "" ∧ ctdparams.TIME_J = "" ∧ ctdparams.TIME_Q = "" ∧
      ctdparams.TIME_N ∉ data then
    Except.error ("Parameter " ++ ctdparams.TIME ++ " is missing in " ++ entity)
  else if ctdparams.PRESSURE ∉ data ∧ ctdparams.DEPTH = "" then
    Except.error ("Parameter " ++ ctdparams.PRESSURE ++ " is missing in " ++ entity)
  else
    Except.ok ()

/-- C1: contrary to the claim, required-parameter validation never raises.
Because the source tests the truthiness of the constant key strings instead
of their membership in the data, both guard conditions are unsatisfiable and
every input, including one with no time channel and neither pressure nor
depth, passes validation. -/
theorem c1_validation_never_raises (data : List String) (entity : String) :
    validate_necessary_parameters data entity = Except.ok () := by
  have hT : ¬ (ctdparams.TIME = "") := by decide
  have hD : ¬ (ctdparams.DEPTH = "") := by decide
  simp [validate_necessary_parameters, hT, hD]

/-- Datetimes are rational seconds on a fixed monotone scale whose zero is
1970-01-01T00:00:00, the epoch used by datetime(1970, 1, 1) in the source. -/
def epoch1970 : ℚ := 0

/-- Seconds from 1970-01-01 to 2000-01-01, the epoch of datetime(2000, 1, 1). -/
def epoch2000 : ℚ := 946684800

/-- Python int() truncation toward zero on a rational. -/
def pytrunc (q : ℚ) : ℤ :=
  if 0 ≤ q then ⌊q⌋ else ⌈q⌉

/-- Embedding of AbstractReader._julian_to_gregorian: the integer part of the
Julian day count becomes whole days, the fractional part becomes seconds, and
both are added to the start date. -/
def julian_to_gregorian (julian_days : ℚ) (start_date : ℚ) : ℚ :=
  start_date + (pytrunc julian_days : ℚ) * 86400 + (julian_days - (pytrunc julian_days : ℚ)) * 86400

/-- Embedding of AbstractReader._elapsed_seconds_since_jan_1970_to_datetime. -/
def elapsed_seconds_since_jan_1970_to_datetime (elapsed_seconds : ℚ) : ℚ :=
  epoch1970 + elapsed_seconds

/-- Embedding of AbstractReader._elapsed_seconds_since_jan_2000_to_datetime. -/
def elapsed_seconds_since_jan_2000_to_datetime (elapsed_seconds : ℚ) : ℚ :=
  epoch2000 + elapsed_seconds

/-- Embedding of AbstractReader._elapsed_seconds_since_offset_to_datetime. -/
def elapsed_seconds_since_offset_to_datetime (elapsed_seconds : ℚ) (offset_datetime : ℚ) : ℚ :=
  offset_datetime + elapsed_seconds

/-- Lookup in an insertion-ordered association list, the model of a Python
dict with string keys. -/
def pyLookup {α : Type} : List (String × α) → String → Option α
  | [], _ => none
  | p :: t, k => if p.1 = k then some p.2 else pyLookup t k

/-- Python dict subscription: a missing key raises KeyError. -/
def pyGet {α : Type} (d : List (String × α)) (k : String) : Except String α :=
  match pyLookup d k with
  | some v => Except.ok v
  | none => Except.error ("KeyError: " ++ k)

/-- Python membership test k in d on a dict. -/
def hasKey {α : Type} (d : List (String × α)) (k : String) : Bool :=
  (pyLookup d k).isSome

/-- Embedding of the time-coordinate selection in CnvReader.__read. The four
elif branches follow the priority order of the source; the seconds-since-1970
branch reproduces the source exactly, including its subscription of the
seconds-since-2000 key TIME_Q inside the TIME_N branch. The fallback uses the
header scan interval, whose Python truthiness test also rejects a zero
interval; when no branch assigns time_coords the later use of the variable
raises, modelled as an error. -/
def cnvTimeCoords (xarray_data : List (String × List ℚ)) (offset_datetime : ℚ)
    (year_start_datetime : ℚ) (scan_interval : Option ℚ) (maxCount : ℕ) :
    Except String (List ℚ) :=
  if hasKey xarray_data ctdparams.TIME_J then
    (pyGet xarray_data ctdparams.TIME_J).map
      (fun js => js.map (fun jday => julian_to_gregorian jday year_start_datetime))
  else if hasKey xarray_data ctdparams.TIME_Q then
    (pyGet xarray_data ctdparams.TIME_Q).map
      (fun es => es.map elapsed_seconds_since_jan_2000_to_datetime)
  else if hasKey xarray_data ctdparams.TIME_N then
    (pyGet xarray_data ctdparams.TIME_Q).map
      (fun es => es.map elapsed_seconds_since_jan_1970_to_datetime)
  else if hasKey xarray_data ctdparams.TIME_S then
    (pyGet xarray_data ctdparams.TIME_S).map
      (fun es => es.map (fun s => elapsed_seconds_since_offset_to_datetime s offset_datetime))
  else
    match scan_interval with
    | some dt =>
        if dt = 0 then Except.error "NameError: time_coords is not defined"
        else Except.ok ((List.range maxCount).map (fun i => offset_datetime + (i : ℚ) * dt))
    | none => Except.error "NameError: time_coords is not defined"

/-- C3: contrary to the claim, the seconds-since-1970 branch never produces a
time coordinate. With a seconds-since-1970 channel present and no Julian-day
and no seconds-since-2000 channel, the source subscripts the absent
seconds-since-2000 key and raises KeyError, instead of returning the epoch
plus elapsed seconds for each element. -/
theorem c3_seconds_since_1970_branch_raises_keyerror :
    cnvTimeCoords [(ctdparams.TIME_N, [0, 100])] 0 0 none 2 =
      Except.error ("KeyError: " ++ ctdparams.TIME_Q) ∧
    ∀ out, cnvTimeCoords [(ctdparams.TIME_N, [0, 100])] 0 0 none 2 ≠ Except.ok out := by
  refine ⟨by rfl, ?_⟩
  intro out h
  rw [show cnvTimeCoords [(ctdparams.TIME_N, [0, 100])] 0 0 none 2 =
      Except.error ("KeyError: " ++ ctdparams.TIME_Q) from rfl] at h
  exact Except.noConfusion h

/-- Python value as seen by the CNV bad-flag pass: a float, the NaN marker, or
a str. -/
inductive PyVal where
  | float (q : ℚ)
  | nan
  | str (s : String)
deriving DecidableEq, Repr

/-- Equality semantics of the comparison the bad-flag pass performs: floats
compare by value, NaN is unequal to everything, and a float never equals a
str, which is also what the elementwise numpy comparison of a float array
with a str yields. -/
def pyEq : PyVal → PyVal → Bool
  | .float a, .float b => a == b
  | .str a, .str b => a == b
  | _, _ => false

/-- Character-list prefix test, an executable stand-in for the anchored part
of a regex match. -/
def charsPrefix : List Char → List Char → Bool
  | _, [] => true
  | [], _ :: _ => false
  | c :: s, d :: p => if c = d then charsPrefix s p else false

/-- Whether the pattern string is a prefix of the subject string. -/
def strHasPrefix (s pat : String) : Bool :=
  charsPrefix s.data pat.data

/-- The subject string with its first n characters removed. -/
def strDropChars (s : String) (n : ℕ) : String :=
  ⟨s.data.drop n⟩

/-- Embedding of CnvReader.__get_bad_flag: the multiline regex matches a
header line of the form bad_flag directive and returns the rest of the line
as a string, without numeric conversion. The pattern prefix has 13 characters. -/
def getBadFlag : List String → Option String
  | [] => none
  | line :: rest =>
    if strHasPrefix line "# bad_flag = " then
      if strDropChars line 13 = "" then getBadFlag rest else some (strDropChars line 13)
    else getBadFlag rest

/-- Embedding of the bad-flag pass at the end of CnvReader.__read: for every
data variable, each element is kept where it differs from the bad flag and
replaced by NaN where it equals it. The flag is the raw header string. -/
def cnvApplyBadFlag (badFlag : Option String) (dataVars : List (String × List PyVal)) :
    List (String × List PyVal) :=
  match badFlag with
  | none => dataVars
  | some flag =>
      dataVars.map (fun nv =>
        (nv.1, nv.2.map (fun x => if pyEq x (PyVal.str flag) then PyVal.nan else x)))

/-- C4: contrary to the claim, the bad-flag pass replaces nothing. The header
declares the sentinel -9999, a variable contains that literal float value,
yet the pass leaves the dataset unchanged, because the flag is kept as a str
and a float value never compares equal to a str. -/
theorem c4_bad_flag_substitution_never_fires :
    getBadFlag ["* Sea-Bird SBE 9 Data File:", "# bad_flag = -9999"] = some "-9999" ∧
    cnvApplyBadFlag (getBadFlag ["* Sea-Bird SBE 9 Data File:", "# bad_flag = -9999"])
        [("temperature", [PyVal.float (-9999), PyVal.float 2])] =
      [("temperature", [PyVal.float (-9999), PyVal.float 2])] := by
  refine ⟨by decide, by decide⟩

/-- Elementwise helper: the bad-flag substitution keeps every float value. -/
theorem badFlagMap_floats (flag : String) (xs : List PyVal)
    (hxs : ∀ x ∈ xs, ∃ q, x = PyVal.float q) :
    xs.map (fun x => if pyEq x (PyVal.str flag) then PyVal.nan else x) = xs := by
  induction xs with
  | nil => rfl
  | cons x t ih =>
    obtain ⟨q, rfl⟩ := hxs x (List.mem_cons_self x t)
    have hfalse : pyEq (PyVal.float q) (PyVal.str flag) = false := rfl
    simp [hfalse, ih (fun y hy => hxs y (List.mem_cons_of_mem _ hy))]

/-- Unfolding equation for the bad-flag pass with a declared flag. -/
theorem cnvApplyBadFlag_some (flag : String) (l : List (String × List PyVal)) :
    cnvApplyBadFlag (some flag) l =
      l.map (fun nv =>
        (nv.1, nv.2.map (fun x => if pyEq x (PyVal.str flag) then PyVal.nan else x))) := rfl

/-- Float-valued variables pass through the bad-flag substitution untouched,
whatever the declared flag string is. -/
theorem cnvApplyBadFlag_floats_unchanged (flag : String)
    (dataVars : List (String × List PyVal))
    (h : ∀ nv ∈ dataVars, ∀ x ∈ nv.2, ∃ q, x = PyVal.float q) :
    cnvApplyBadFlag (some flag) dataVars = dataVars := by
  rw [cnvApplyBadFlag_some]
  induction dataVars with
  | nil => rfl
  | cons nv t ih =>
    have hmap := badFlagMap_floats flag nv.2 (h nv (List.mem_cons_self nv t))
    simp [hmap, ih (fun m hm => h m (List.mem_cons_of_mem _ hm))]

/-- Embedding of the time index built in RbrRskLegacyReader.__read: the data
table rows are fetched by a SELECT without ORDER BY, so they arrive in table
order, and pd.to_datetime with unit ms sends each millisecond count to the
corresponding datetime64 nanosecond instant, an order-preserving and
length-preserving elementwise conversion. -/
def rbrTimeIndex (tstamps : List ℤ) : List ℤ :=
  tstamps.map (fun t => t * 1000000)

/-- Monotonically non-decreasing integer sequence, as an executable check. -/
def nonDecreasing : List ℤ → Bool
  | a :: b :: t => if a ≤ b then nonDecreasing (b :: t) else false
  | _ => true

/-- C2 counterexample: a legacy RBR data table whose tstamp column is not
sorted yields a time coordinate that is not monotonically non-decreasing,
though its length still equals the number of input samples. The reader never
sorts, so the claimed monotonicity fails for unsorted input. -/
theorem c2_unsorted_tstamps_give_unsorted_time :
    (rbrTimeIndex [1, 0]).length = 2 ∧
      nonDecreasing (rbrTimeIndex [1, 0]) = false := by
  constructor
  · rfl
  · decide

/-- Order preservation of the millisecond-to-instant conversion. -/
theorem rbrTimeIndex_nonDecreasing :
    ∀ (l : List ℤ), nonDecreasing l = true → nonDecreasing (rbrTimeIndex l) = true
  | [] , _ => rfl
  | [_], _ => rfl
  | a :: b :: t, h => by
    unfold nonDecreasing at h
    by_cases hab : a ≤ b
    · rw [if_pos hab] at h
      have ht := rbrTimeIndex_nonDecreasing (b :: t) h
      have hab6 : a * 1000000 ≤ b * 1000000 :=
        mul_le_mul_of_nonneg_right hab (by norm_num)
      show nonDecreasing (rbrTimeIndex (a :: b :: t)) = true
      unfold rbrTimeIndex at ht ⊢
      simp only [List.map_cons] at ht ⊢
      unfold nonDecreasing
      rw [if_pos hab6]
      exact ht
    · rw [if_neg hab] at h
      exact absurd h (by simp)

/-- C2 amended: the time coordinate always has one entry per input sample,
and it is monotonically non-decreasing whenever the tstamp column of the data
table is, because the millisecond-to-instant conversion preserves order. -/
theorem c2_amended_time_index_order_and_length (tstamps : List ℤ) :
    (rbrTimeIndex tstamps).length = tstamps.length ∧
      (nonDecreasing tstamps = true → nonDecreasing (rbrTimeIndex tstamps) = true) := by
  constructor
  · simp [rbrTimeIndex]
  · exact rbrTimeIndex_nonDecreasing tstamps

/-- C2 amended witness: on the sorted millisecond column 0, 5, 5 the theorem
applies and yields a sorted one-entry-per-sample time coordinate. -/
theorem c2_amended_witness :
    (rbrTimeIndex [0, 5, 5]).length = ([0, 5, 5] : List ℤ).length ∧
      nonDecreasing (rbrTimeIndex [0, 5, 5]) = true :=
  ⟨(c2_amended_time_index_order_and_length [0, 5, 5]).1,
   (c2_amended_time_index_order_and_length [0, 5, 5]).2 (by decide)⟩

/-- Raw decoded CNV file contents as delivered by the external pycnv parser:
the declared channel names and the per-channel data columns. -/
structure CnvFile where
  channels : List String
  data : List (String × List ℚ)

/-- Embedding of the alias auto-mapping loop at the start of CnvReader.__read:
for every registry key not already in the mapping, the first registry alias
that occurs among the channel names is recorded, by mutating the mapping dict
in place. -/
def cnvAutoMap (defaults : List (String × List String))
    (mapping : List (String × String)) (channelNames : List String) :
    List (String × String) :=
  defaults.foldl (fun m kv =>
    if hasKey m kv.1 then m
    else
      match kv.2.find? (fun v => channelNames.contains v) with
      | some v => m ++ [(kv.1, v)]
      | none => m) mapping

/-- Embedding of the data-extraction loop of CnvReader.__read: for every
mapping entry the mapped channel column is fetched from the pycnv data dict,
raising KeyError when the channel is absent from the file. -/
def cnvExtractData (cnvData : List (String × List ℚ))
    (mapping : List (String × String)) : Except String (List (String × List ℚ)) :=
  mapping.mapM (fun kv => (pyGet cnvData kv.2).map (fun arr => (kv.1, arr)))

/-- Embedding of CnvReader construction without an explicit mapping argument.
The signature of CnvReader.__init__ uses the mutable default mapping dict, a
single module-level object shared by every such construction; __read mutates
it in place through the alias auto-mapping loop. The first component is the
extracted data of this construction, the second is the state of the shared
default dict afterwards, which the next construction receives. -/
def cnvConstructSharedDefault (defaults : List (String × List String))
    (sharedDefaultMapping : List (String × String)) (file : CnvFile) :
    Except String (List (String × List ℚ)) × List (String × String) :=
  let m := cnvAutoMap defaults sharedDefaultMapping file.channels
  (cnvExtractData file.data m, m)

/-- C9: contrary to the claim, construction order is observable. With a
registry mapping temperature to the aliases tv290C then t090C, constructing a
CnvReader on a file exposing only t090C succeeds from a fresh process, but
fails with KeyError after another CnvReader was first constructed on a file
exposing tv290C, because the shared mutable default mapping dict still holds
the stale entry of the earlier instance. -/
theorem c9_shared_default_mapping_interferes :
    (cnvConstructSharedDefault [("temperature", ["tv290C", "t090C"])] []
        ⟨["t090C"], [("t090C", [2])]⟩).1 = Except.ok [("temperature", [2])] ∧
    (cnvConstructSharedDefault [("temperature", ["tv290C", "t090C"])]
        (cnvConstructSharedDefault [("temperature", ["tv290C", "t090C"])] []
          ⟨["tv290C"], [("tv290C", [1])]⟩).2
        ⟨["t090C"], [("t090C", [2])]⟩).1 = Except.error "KeyError: tv290C" := by
  constructor <;> rfl

/-- Split of a character list at every occurrence of a separator. -/
def splitChar (sep : Char) : List Char → List (List Char)
  | [] => [[]]
  | c :: t =>
    if c = sep then [] :: splitChar sep t
    else
      match splitChar sep t with
      | h :: r => (c :: h) :: r
      | [] => [[c]]

/-- Value of a digit character. -/
def charDigit (c : Char) : ℕ := c.toNat - 48

/-- Parse of a nonempty all-digit character list into a natural number. -/
def digits? (cs : List Char) : Option ℕ :=
  if cs ≠ [] ∧ cs.all Char.isDigit then
    some (cs.foldl (fun a c => a * 10 + charDigit c) 0)
  else none

/-- Assembly of calendar components into an instant. The encoding is a
simplified monotone calendar: component validity is checked at day-in-month
granularity 31, a permissive superset of the pandas calendar, and the scale
is a fixed lexicographic second count. Every claim settled with it depends
only on totality, on failure for out-of-range components, and on order. -/
def mkDatetime (y mo d h mi s : ℕ) : Option ℤ :=
  if 1 ≤ mo ∧ mo ≤ 12 ∧ 1 ≤ d ∧ d ≤ 31 ∧ h ≤ 23 ∧ mi ≤ 59 ∧ s ≤ 59 then
    some ((((((y * 12 + mo) * 31 + d) * 24 + h) * 60 + mi) * 60 + s : ℕ) : ℤ)
  else none

/-- Parse of a timestamp written as date, blank, time with dashed date and
colon-separated time, the shape pandas accepts for the TOB and RBR columns. -/
def parseDateTime (str : String) : Option ℤ :=
  match splitChar ' ' str.data with
  | [ds, ts] =>
    match splitChar '-' ds, splitChar ':' ts with
    | [ys, ms, dds], [hs, mis, ss] =>
      match digits? ys, digits? ms, digits? dds, digits? hs, digits? mis, digits? ss with
      | some y, some mo, some d, some h, some mi, some s => mkDatetime y mo d h mi s
      | _, _, _, _, _, _ => none
    | _, _ => none
  | _ => none

/-- Embedding of the fixed rename table applied by TobReader.__read. -/
def tobRenames : List (String × String) :=
  [("SALIN", ctdparams.SALINITY), ("Temp", ctdparams.TEMPERATURE),
   ("Cond", ctdparams.CONDUCTIVITY), ("Press", ctdparams.PRESSURE),
   ("SOUND", ctdparams.SPEED_OF_SOUND), ("Vbatt", ctdparams.POWER_SUPPLY_INPUT_VOLTAGE),
   ("SIGMA", "sigma"), ("Datasets", "sample")]

/-- Name part of an xarray Dataset.rename call: every source name must exist
and no target name may already exist, otherwise xarray raises; on success all
entries are renamed simultaneously. -/
def xrRename (renames : List (String × String)) (vars : List String) :
    Except String (List String) :=
  if renames.all (fun kv => vars.contains kv.1) then
    if renames.all (fun kv => !(vars.contains kv.2)) then
      Except.ok (vars.map (fun v => (pyLookup renames v).getD v))
    else Except.error "ValueError: rename target conflicts with existing name"
  else Except.error "ValueError: cannot rename missing variable"

/-- Dataset produced by the TOB reader, reduced to the parts the claims need:
data-variable names and the time coordinate after coercion. -/
structure TobDataset where
  vars : List String
  time : List (Option ℤ)
deriving DecidableEq

/-- Column header of a well-formed Sea and Sun TOB file. -/
def stdTobColumns : List String :=
  ["Datasets", "IntD", "IntT", "Press", "Temp", "Cond", "SALIN", "SOUND", "Vbatt", "SIGMA"]

/-- Embedding of TobReader.__read, the claim-relevant part after the header
lines are located: read_csv merges the IntD and IntT columns into the time
index, so the data variables are the remaining columns; the fixed rename
table is applied; depth is attached as a new variable computed from the
pressure variable; finally the time coordinate is coerced elementwise with
errors equal coerce, turning each unparsable entry into the NaT marker
instead of failing the read. No derived density or potential temperature is
ever attached by this reader. -/
def tobRead (columnNames : List String) (timeRaw : List String) :
    Except String TobDataset := do
  if columnNames.contains "IntD" && columnNames.contains "IntT" then
    let vars0 := columnNames.filter (fun c => !(c == "IntD") && !(c == "IntT"))
    let vars1 ← xrRename tobRenames vars0
    if vars1.contains ctdparams.PRESSURE then
      let vars2 := if vars1.contains ctdparams.DEPTH then vars1 else vars1 ++ [ctdparams.DEPTH]
      Except.ok ⟨vars2, timeRaw.map parseDateTime⟩
    else Except.error "KeyError: pressure"
  else Except.error "ValueError: missing column provided to parse_dates"

/-- C5 counterexample: a TOB file exposing salinity, temperature and pressure
(with the full standard column header) is read successfully, yet its dataset
contains neither density nor potential_temperature, because the TOB reader
never derives them; this falsifies the claim for every reader. -/
theorem c5_counterexample_tob_no_derived_variables :
    (tobRead stdTobColumns ["2023-01-01 00:00:00"]).map (fun ds =>
      (ds.vars.contains ctdparams.SALINITY, ds.vars.contains ctdparams.TEMPERATURE,
       ds.vars.contains ctdparams.PRESSURE, ds.vars.contains "density",
       ds.vars.contains "potential_temperature")) =
    Except.ok (true, true, true, false, false) := by
  rfl

/-- Assignment of a variable name into a dataset: subscription assignment
overwrites an existing variable and otherwise appends a new one, so the name
set gains the key exactly once. -/
def insertVarName (vars : List String) (k : String) : List String :=
  if vars.contains k then vars else vars ++ [k]

/-- Embedding of the data-variable name set produced by CnvReader.__read
after the dataset template: density and potential_temperature are attached
first, exactly when temperature, pressure and salinity all occur among the
mapping keys (the keys of xarray_data), and then every mapping key is
assigned as a variable. -/
def cnvDataVars (mappingKeys : List String) : List String :=
  let derived :=
    if mappingKeys.contains ctdparams.TEMPERATURE &&
        mappingKeys.contains ctdparams.PRESSURE &&
        mappingKeys.contains ctdparams.SALINITY then
      ["density", "potential_temperature"]
    else []
  mappingKeys.foldl insertVarName derived

/-- Membership in an insertVarName result. -/
theorem mem_insertVarName (vars : List String) (k x : String) :
    x ∈ insertVarName vars k ↔ x ∈ vars ∨ x = k := by
  unfold insertVarName
  by_cases h : vars.contains k
  · rw [if_pos h]
    constructor
    · exact fun hx => Or.inl hx
    · rintro (hx | rfl)
      · exact hx
      · exact List.mem_of_elem_eq_true h
  · rw [if_neg h]
    simp [List.mem_append]

/-- Membership in the fold of insertVarName over a key list. -/
theorem mem_foldl_insertVarName (ks : List String) :
    ∀ (init : List String) (x : String),
      x ∈ ks.foldl insertVarName init ↔ x ∈ init ∨ x ∈ ks := by
  induction ks with
  | nil => intro init x; simp
  | cons k t ih =>
    intro init x
    rw [List.foldl_cons, ih, mem_insertVarName]
    constructor
    · rintro ((hx | rfl) | hx)
      · exact Or.inl hx
      · exact Or.inr (List.mem_cons_self _ _)
      · exact Or.inr (List.mem_cons_of_mem _ hx)
    · rintro (hx | hx)
      · exact Or.inl (Or.inl hx)
      · rcases List.mem_cons.mp hx with rfl | hx
        · exact Or.inl (Or.inr rfl)
        · exact Or.inr hx

/-- C5 amended: derivation gating holds for the CNV reader, the only reader
that derives. A CNV mapping lacking salinity, and not itself naming density
or potential_temperature, yields a dataset containing neither derived
variable; a CNV mapping containing temperature, pressure and salinity yields
both. Readers without a derivation step, such as TOB, do not attach these
variables even when all three inputs are present. -/
theorem c5_amended_cnv_derivation_gating (ks : List String) :
    ((ctdparams.SALINITY ∉ ks ∧ "density" ∉ ks ∧ "potential_temperature" ∉ ks) →
      "density" ∉ cnvDataVars ks ∧ "potential_temperature" ∉ cnvDataVars ks) ∧
    ((ctdparams.TEMPERATURE ∈ ks ∧ ctdparams.PRESSURE ∈ ks ∧ ctdparams.SALINITY ∈ ks) →
      "density" ∈ cnvDataVars ks ∧ "potential_temperature" ∈ cnvDataVars ks) := by
  constructor
  · rintro ⟨hsal, hd, hp⟩
    have hgate : ks.contains ctdparams.SALINITY = false :=
      Bool.eq_false_iff.mpr (fun h => hsal (List.elem_iff.mp h))
    have hvars : cnvDataVars ks = ks.foldl insertVarName [] := by
      unfold cnvDataVars
      rw [hgate]
      simp
    rw [hvars]
    constructor
    · intro hmem
      rcases (mem_foldl_insertVarName ks [] "density").mp hmem with h | h
      · exact absurd h (List.not_mem_nil _)
      · exact hd h
    · intro hmem
      rcases (mem_foldl_insertVarName ks [] "potential_temperature").mp hmem with h | h
      · exact absurd h (List.not_mem_nil _)
      · exact hp h
  · rintro ⟨ht, hp, hs⟩
    have hvars : cnvDataVars ks =
        ks.foldl insertVarName ["density", "potential_temperature"] := by
      have ht2 : ks.contains ctdparams.TEMPERATURE = true := List.elem_iff.mpr ht
      have hp2 : ks.contains ctdparams.PRESSURE = true := List.elem_iff.mpr hp
      have hs2 : ks.contains ctdparams.SALINITY = true := List.elem_iff.mpr hs
      unfold cnvDataVars
      rw [ht2, hp2, hs2]
      simp
    rw [hvars]
    exact ⟨(mem_foldl_insertVarName ks _ _).mpr (Or.inl (by decide)),
      (mem_foldl_insertVarName ks _ _).mpr (Or.inl (by decide))⟩

/-- C5 amended witness: with only time and temperature mapped the CNV dataset
has no density variable; with temperature, pressure and salinity mapped it
has one. -/
theorem c5_amended_witness :
    "density" ∉ cnvDataVars [ctdparams.TIME, ctdparams.TEMPERATURE] ∧
    "density" ∈ cnvDataVars [ctdparams.TEMPERATURE, ctdparams.PRESSURE, ctdparams.SALINITY] :=
  ⟨((c5_amended_cnv_derivation_gating [ctdparams.TIME, ctdparams.TEMPERATURE]).1
      (by refine ⟨by decide, by decide, by decide⟩)).1,
   ((c5_amended_cnv_derivation_gating
      [ctdparams.TEMPERATURE, ctdparams.PRESSURE, ctdparams.SALINITY]).2
      (by refine ⟨by decide, by decide, by decide⟩)).1⟩

/-- Effectful elementwise traversal over Except, the model of a pandas
conversion in the default errors equal raise mode: the first failing element
aborts the whole conversion. -/
def exceptMapList {α β : Type} (f : α → Except String β) : List α → Except String (List β)
  | [] => Except.ok []
  | a :: t => do
    let b ← f a
    let r ← exceptMapList f t
    Except.ok (b :: r)

/-- Embedding of the datetime assembly in
NortekAsciiReader.__create_xarray_dataset: pd.to_datetime is called on the
six component columns without an errors argument, that is in the default
raise mode, so a single invalid component row aborts the read. -/
def nortekTimes (rows : List (ℕ × ℕ × ℕ × ℕ × ℕ × ℕ)) : Except String (List ℤ) :=
  exceptMapList (fun r =>
    match r with
    | (y, mo, d, h, mi, s) =>
      match mkDatetime y mo d h mi s with
      | some t => Except.ok t
      | none => Except.error "ValueError: cannot assemble datetime from the given columns") rows

/-- A failing element makes the whole raise-mode traversal fail. -/
theorem exceptMapList_error_of_mem {α β : Type} (f : α → Except String β) :
    ∀ (l : List α) (a : α), a ∈ l → (∃ e, f a = Except.error e) →
      ∀ out, exceptMapList f l ≠ Except.ok out := by
  intro l
  induction l with
  | nil =>
    intro a ha
    exact absurd ha (List.not_mem_nil a)
  | cons b t ih =>
    rintro a ha ⟨e, he⟩ out h
    rcases List.mem_cons.mp ha with rfl | hat
    · unfold exceptMapList at h
      rw [he] at h
      exact Except.noConfusion h
    · cases hfb : f b with
      | error e2 =>
        unfold exceptMapList at h
        rw [hfb] at h
        exact Except.noConfusion h
      | ok vb =>
        unfold exceptMapList at h
        rw [hfb] at h
        cases hrt : exceptMapList f t with
        | error e3 =>
          rw [hrt] at h
          exact Except.noConfusion h
        | ok rt =>
          exact ih a hat ⟨e, he⟩ rt hrt

/-- C7 counterexample: a single Nortek row with month 13 makes the datetime
assembly, and with it reader construction, fail, instead of being coerced to
a missing-value marker as the claim states for the Nortek reader. -/
theorem c7_counterexample_nortek_raises_on_malformed :
    nortekTimes [(2020, 13, 1, 0, 0, 0)] =
      Except.error "ValueError: cannot assemble datetime from the given columns" := by
  rfl

/-- Positional access into the coerced time column. -/
theorem map_parseDateTime_getD (l : List String) (i : ℕ) (h : i < l.length) :
    (l.map parseDateTime).getD i (some 0) = parseDateTime (l.getD i "") := by
  induction l generalizing i with
  | nil => exact absurd h (by simp)
  | cons a t ih =>
    cases i with
    | zero => rfl
    | succ n =>
      have hn : n < t.length := Nat.lt_of_succ_lt_succ (by simpa using h)
      simpa using ih n hn

/-- C7 amended: the TOB reader coerces, the Nortek reader raises. A TOB read
with the standard column header succeeds for every time column, its time
coordinate has one entry per sample, and every individually unparsable entry
is coerced to the missing marker NaT; the Nortek reader instead fails the
whole read as soon as one row of date and time components is invalid. -/
theorem c7_amended_tob_coerces_nortek_raises :
    (∀ (timeRaw : List String), ∃ ds : TobDataset,
        tobRead stdTobColumns timeRaw = Except.ok ds ∧
        ds.time.length = timeRaw.length ∧
        (∀ i, i < timeRaw.length → parseDateTime (timeRaw.getD i "") = none →
          ds.time.getD i (some 0) = none)) ∧
    (∀ (rows : List (ℕ × ℕ × ℕ × ℕ × ℕ × ℕ)) (r : ℕ × ℕ × ℕ × ℕ × ℕ × ℕ),
        r ∈ rows →
        mkDatetime r.1 r.2.1 r.2.2.1 r.2.2.2.1 r.2.2.2.2.1 r.2.2.2.2.2 = none →
        ∀ out, nortekTimes rows ≠ Except.ok out) := by
  constructor
  · intro timeRaw
    refine ⟨⟨["sample", "pressure", "temperature", "conductivity", "salinity",
        "speed_of_sound", "power_supply_input_voltage", "sigma", "depth"],
        timeRaw.map parseDateTime⟩, rfl, by simp, ?_⟩
    intro i hi hparse
    show (timeRaw.map parseDateTime).getD i (some 0) = none
    rw [map_parseDateTime_getD timeRaw i hi]
    exact hparse
  · rintro rows ⟨y, mo, d, h, mi, s⟩ hmem hnone out
    refine exceptMapList_error_of_mem _ rows (y, mo, d, h, mi, s) hmem ?_ out
    refine ⟨"ValueError: cannot assemble datetime from the given columns", ?_⟩
    simp only at hnone
    simp [hnone]

/-- C7 amended witness: a TOB read with one unparsable time entry succeeds,
and a Nortek read with one invalid component row is not accepted. -/
theorem c7_amended_witness :
    (∃ ds : TobDataset, tobRead stdTobColumns ["not a timestamp"] = Except.ok ds) ∧
    (∀ out, nortekTimes [(2020, 13, 1, 0, 0, 0)] ≠ Except.ok out) := by
  constructor
  · obtain ⟨ds, hds, -, -⟩ := c7_amended_tob_coerces_nortek_raises.1 ["not a timestamp"]
    exact ⟨ds, hds⟩
  · exact c7_amended_tob_coerces_nortek_raises.2 [(2020, 13, 1, 0, 0, 0)]
      (2020, 13, 1, 0, 0, 0) (List.mem_cons_self _ _) (by decide)

/-- Python dict item assignment: replaces the value of an existing key in
place, otherwise appends the new key at the end. -/
def upsertAttr : List (String × String) → String → String → List (String × String)
  | [], k, v => [(k, v)]
  | p :: t, k, v => if p.1 = k then (k, v) :: t else p :: upsertAttr t k v

/-- Python truthiness of an optional string argument: None and the empty
string are falsy. -/
def truthyOptStr : Option String → Bool
  | none => false
  | some s => !(s == "")

/-- The unit text in brackets is removed from the label and the result is
stripped of surrounding whitespace, as the source does before storing the
long name. -/
def stripUnitFromLabel (label unit : String) : String :=
  (label.replace ("[" ++ unit ++ "]") "").trim

/-- First phase of the metadata merge: every registry default attribute for
the key is filled in, but only where the attribute is not already present. -/
def fillDefaults (metadata : List (String × List (String × String))) (key : String)
    (attrs : List (String × String)) : List (String × String) :=
  match pyLookup metadata key with
  | some defaults =>
      defaults.foldl (fun a kv => if hasKey a kv.1 then a else a ++ [(kv.1, kv.2)]) attrs
  | none => attrs

/-- Second phase: a truthy unit argument overwrites the units attribute. -/
def applyUnit (unit : Option String) (attrs : List (String × String)) :
    List (String × String) :=
  match unit with
  | some u => if u = "" then attrs else upsertAttr attrs "units" u
  | none => attrs

/-- Third phase: a truthy label argument overwrites the long_name attribute,
with the bracketed unit text stripped first when a truthy unit was given. -/
def applyLabel (label unit : Option String) (attrs : List (String × String)) :
    List (String × String) :=
  match label with
  | some l =>
    if l = "" then attrs
    else
      match unit with
      | some u =>
        if u = "" then upsertAttr attrs "long_name" l
        else upsertAttr attrs "long_name" (stripUnitFromLabel l u)
      | none => upsertAttr attrs "long_name" l
  | none => attrs

/-- Embedding of AbstractReader._assign_metadata_for_key_to_xarray_dataset on
the attribute dict of one dataset key, composing the three phases in the
order the source executes them. -/
def assign_metadata_for_key (metadata : List (String × List (String × String)))
    (attrs : List (String × String)) (key : String) (label unit : Option String) :
    List (String × String) :=
  applyLabel label unit (applyUnit unit (fillDefaults metadata key attrs))

/-- An existing binding survives appending at the end. -/
theorem pyLookup_append_some {α : Type} (a : List (String × α)) (t : List (String × α))
    (k : String) (v : α) (h : pyLookup a k = some v) : pyLookup (a ++ t) k = some v := by
  induction a with
  | nil => exact absurd h (by simp [pyLookup])
  | cons p r ih =>
    simp only [pyLookup] at h
    simp only [List.cons_append, pyLookup]
    by_cases hp : p.1 = k
    · rwa [if_pos hp] at h ⊢
    · rw [if_neg hp] at h ⊢
      exact ih h

/-- The registry-default fill never changes an attribute that is already
present. -/
theorem pyLookup_fill_defaults (defaults : List (String × String)) :
    ∀ (attrs : List (String × String)) (k : String) (v : String),
      pyLookup attrs k = some v →
      pyLookup (defaults.foldl
        (fun a kv => if hasKey a kv.1 then a else a ++ [(kv.1, kv.2)]) attrs) k = some v := by
  induction defaults with
  | nil => intro attrs k v h; exact h
  | cons d t ih =>
    intro attrs k v h
    rw [List.foldl_cons]
    by_cases hd : hasKey attrs d.1
    · rw [if_pos hd]
      exact ih attrs k v h
    · rw [if_neg hd]
      exact ih _ k v (pyLookup_append_some attrs [(d.1, d.2)] k v h)

/-- Assignment stores its value under its key. -/
theorem pyLookup_upsert_self (a : List (String × String)) (k v : String) :
    pyLookup (upsertAttr a k v) k = some v := by
  induction a with
  | nil => simp [upsertAttr, pyLookup]
  | cons p t ih =>
    simp only [upsertAttr]
    by_cases hp : p.1 = k
    · rw [if_pos hp]
      simp [pyLookup]
    · rw [if_neg hp]
      simp only [pyLookup]
      rw [if_neg hp]
      exact ih

/-- Assignment leaves every other key unchanged. -/
theorem pyLookup_upsert_ne (a : List (String × String)) (k v q : String) (h : q ≠ k) :
    pyLookup (upsertAttr a k v) q = pyLookup a q := by
  have hkq : ¬ (k = q) := fun hk => h hk.symm
  induction a with
  | nil =>
    simp only [upsertAttr, pyLookup]
    rw [if_neg hkq]
  | cons p t ih =>
    simp only [upsertAttr]
    by_cases hp : p.1 = k
    · rw [if_pos hp]
      simp only [pyLookup]
      rw [if_neg hkq, if_neg (fun hq : p.1 = q => hkq (hp.symm.trans hq))]
    · rw [if_neg hp]
      simp only [pyLookup]
      by_cases hpq : p.1 = q
      · rw [if_pos hpq, if_pos hpq]
      · rw [if_neg hpq, if_neg hpq]
        exact ih

/-- The registry fill phase preserves every attribute already present. -/
theorem fillDefaults_preserve (metadata : List (String × List (String × String)))
    (key : String) (attrs : List (String × String)) (k v : String)
    (h : pyLookup attrs k = some v) :
    pyLookup (fillDefaults metadata key attrs) k = some v := by
  unfold fillDefaults
  cases hmd : pyLookup metadata key with
  | none => exact h
  | some defaults => exact pyLookup_fill_defaults defaults attrs k v h

/-- A falsy unit argument leaves the attributes unchanged. -/
theorem applyUnit_falsy (unit : Option String) (attrs : List (String × String))
    (h : truthyOptStr unit = false) : applyUnit unit attrs = attrs := by
  cases unit with
  | none => rfl
  | some u =>
    have hu : u = "" := by simpa [truthyOptStr] using h
    simp [applyUnit, hu]

/-- The unit phase changes at most the units attribute. -/
theorem applyUnit_preserve_ne (unit : Option String) (attrs : List (String × String))
    (k : String) (h : k ≠ "units") :
    pyLookup (applyUnit unit attrs) k = pyLookup attrs k := by
  cases unit with
  | none => rfl
  | some u =>
    by_cases hu : u = ""
    · simp [applyUnit, hu]
    · simp only [applyUnit, if_neg hu]
      exact pyLookup_upsert_ne attrs "units" u k h

/-- A falsy label argument leaves the attributes unchanged. -/
theorem applyLabel_falsy (label unit : Option String) (attrs : List (String × String))
    (h : truthyOptStr label = false) : applyLabel label unit attrs = attrs := by
  cases label with
  | none => rfl
  | some l =>
    have hl : l = "" := by simpa [truthyOptStr] using h
    simp [applyLabel, hl]

/-- Unfolding of the label phase for a truthy label and no unit. -/
theorem applyLabel_some_none (l : String) (attrs : List (String × String)) (hl : l ≠ "") :
    applyLabel (some l) none attrs = upsertAttr attrs "long_name" l := by
  simp [applyLabel, hl]

/-- The label phase changes at most the long_name attribute. -/
theorem applyLabel_preserve_ne (label unit : Option String) (attrs : List (String × String))
    (k : String) (h : k ≠ "long_name") :
    pyLookup (applyLabel label unit attrs) k = pyLookup attrs k := by
  cases label with
  | none => rfl
  | some l =>
    by_cases hl : l = ""
    · simp [applyLabel, hl]
    · cases unit with
      | none =>
        simp only [applyLabel, if_neg hl]
        exact pyLookup_upsert_ne attrs "long_name" l k h
      | some u =>
        by_cases hu : u = ""
        · simp only [applyLabel, if_neg hl, if_pos hu]
          exact pyLookup_upsert_ne attrs "long_name" l k h
        · simp only [applyLabel, if_neg hl, if_neg hu]
          exact pyLookup_upsert_ne attrs "long_name" (stripUnitFromLabel l u) k h

/-- C6: the metadata merge respects the priority order. A registry default
never overwrites an attribute already present: after the merge every
previously stored attribute still has its old value, except that the units
and long_name attributes may be rewritten by a truthy explicit unit or label
argument, which have higher priority. An explicit label with no unit is
stored verbatim as long_name, and in the concrete scenario of the claim a
caller label Temp beats the registry default long_name Temperature. -/
theorem c6_metadata_merge_priority (metadata : List (String × List (String × String)))
    (attrs : List (String × String)) (key : String) (label unit : Option String) :
    (∀ k v, pyLookup attrs k = some v →
      pyLookup (assign_metadata_for_key metadata attrs key label unit) k = some v ∨
        (k = "units" ∧ truthyOptStr unit = true) ∨
        (k = "long_name" ∧ truthyOptStr label = true)) ∧
    (∀ l, l ≠ "" →
      pyLookup (assign_metadata_for_key metadata attrs key (some l) none) "long_name" =
        some l) ∧
    pyLookup (assign_metadata_for_key
        [(ctdparams.TEMPERATURE, [("long_name", "Temperature")])] []
        ctdparams.TEMPERATURE (some "Temp") none) "long_name" = some "Temp" := by
  refine ⟨?_, ?_, ?_⟩
  · intro k v hv
    have h1 := fillDefaults_preserve metadata key attrs k v hv
    by_cases hku : k = "units"
    · cases htu : truthyOptStr unit with
      | true => exact Or.inr (Or.inl ⟨hku, rfl⟩)
      | false =>
        left
        unfold assign_metadata_for_key
        rw [applyUnit_falsy unit _ htu]
        cases htl : truthyOptStr label with
        | false =>
          rw [applyLabel_falsy label unit _ htl]
          exact h1
        | true =>
          rw [applyLabel_preserve_ne label unit _ k (by rw [hku]; decide)]
          exact h1
    · by_cases hkl : k = "long_name"
      · cases htl : truthyOptStr label with
        | true => exact Or.inr (Or.inr ⟨hkl, rfl⟩)
        | false =>
          left
          unfold assign_metadata_for_key
          rw [applyLabel_falsy label unit _ htl,
            applyUnit_preserve_ne unit _ k hku]
          exact h1
      · left
        unfold assign_metadata_for_key
        rw [applyLabel_preserve_ne label unit _ k hkl,
          applyUnit_preserve_ne unit _ k hku]
        exact h1
  · intro l hl
    unfold assign_metadata_for_key
    rw [applyLabel_some_none l _ hl]
    exact pyLookup_upsert_self _ "long_name" l
  · rfl

/-- C6 witness: a pre-existing units attribute survives a merge with no
explicit arguments even when the registry would supply a different default,
and an explicit label with no unit is stored as long_name. -/
theorem c6_metadata_merge_priority_witness :
    pyLookup (assign_metadata_for_key
        [("temperature", [("units", "K")])] [("units", "degC")]
        "temperature" none none) "units" = some "degC" ∧
    pyLookup (assign_metadata_for_key [] [] "x" (some "Temp") none) "long_name" =
      some "Temp" := by
  constructor
  · rcases (c6_metadata_merge_priority [("temperature", [("units", "K")])]
        [("units", "degC")] "temperature" none none).1 "units" "degC" (by rfl) with
      h | ⟨-, h⟩ | ⟨-, h⟩
    · exact h
    · exact absurd h (by decide)
    · exact absurd h (by decide)
  · exact (c6_metadata_merge_priority [] [] "x" (some "Temp") none).2.1 "Temp" (by decide)

/-- Modelled from the spec: the default alias registry of the missing
ctd_parameters module, a static catalogue mapping each canonical key to its
case-insensitively recognized format aliases, with alias lists disjoint
across keys. The concrete alias strings below are representative; every
theorem about the generic post-processing pass quantifies over the registry
and assumes only the spec-stated shape, and the CSV reader uses only the key
set of this table. -/
def default_mappings : List (String × List String) :=
  [(ctdparams.TIME, ["Timestamp", "DateTime"]),
   (ctdparams.PRESSURE, ["Press", "prDM"]),
   (ctdparams.DEPTH, ["depSM"]),
   (ctdparams.TEMPERATURE, ["Temp", "tv290C"]),
   (ctdparams.SALINITY, ["SALIN", "sal00"]),
   (ctdparams.CONDUCTIVITY, ["Cond", "c0mS"]),
   (ctdparams.LATITUDE, ["Lat"]),
   (ctdparams.LONGITUDE, ["Lon"])]

/-- Parse of an unsigned decimal literal from characters. -/
def parseFloatPos (cs : List Char) : Option ℚ :=
  match splitChar '.' cs with
  | [ip] => (digits? ip).map (fun n => (n : ℚ))
  | [ip, fp] =>
    match digits? ip, digits? fp with
    | some i, some f => some ((i : ℚ) + (f : ℚ) / (10 : ℚ) ^ fp.length)
    | _, _ => none
  | _ => none

/-- Model of the Python float() conversion on a column entry: an optional
sign followed by a decimal literal; anything else raises. -/
def parseFloat (str : String) : Option ℚ :=
  match str.data with
  | '-' :: rest => (parseFloatPos rest).map Neg.neg
  | cs => parseFloatPos cs

/-- Parse of a timestamp in the fixed strptime format of the CSV reader,
year-month-day space hour:minute:second.microsecond, where the fraction part
is mandatory and has at most six digits. -/
def parseTimestampMicro (str : String) : Option ℚ :=
  match splitChar ' ' str.data with
  | [ds, ts] =>
    match splitChar '-' ds, splitChar ':' ts with
    | [ys, ms, dds], [hs, mis, sfs] =>
      match splitChar '.' sfs with
      | [ss, fs] =>
        match digits? ys, digits? ms, digits? dds, digits? hs, digits? mis,
            digits? ss, digits? fs with
        | some y, some mo, some d, some h, some mi, some s, some f =>
          if fs.length ≤ 6 then
            match mkDatetime y mo d h mi s with
            | some t => some ((t : ℚ) + (f : ℚ) / (10 : ℚ) ^ fs.length)
            | none => none
          else none
        | _, _, _, _, _, _, _ => none
      | _ => none
    | _, _ => none
  | _ => none

/-- Conversion of a whole CSV column with float(), first failure aborting. -/
def floatColumn (vals : List String) : Except String (List ℚ) :=
  exceptMapList (fun s =>
    match parseFloat s with
    | some q => Except.ok q
    | none => Except.error "ValueError: could not convert string to float") vals

/-- Python subscription of the first list element, raising IndexError on an
empty list. -/
def listFirst (l : List ℚ) : Except String ℚ :=
  match l.head? with
  | some v => Except.ok v
  | none => Except.error "IndexError: list index out of range"

/-- Canonical dataset as produced by the CSV reader, reduced to the parts the
claims need. -/
structure CsvDataset where
  time : List ℚ
  depth : List ℚ
  latitude : ℚ
  longitude : ℚ
  dataVars : List String

/-- Embedding of CsvReader.__read: validation (which never raises, see C1),
strptime conversion of the time column in the fixed format with no
tolerance, float conversion of every registry-known non-time column, then
the dataset template built from the time, depth and first latitude and
longitude values, each fetched by dict subscription that raises KeyError
when the column is absent; only after all of that is the dataset stored. -/
def csvRead (columns : List (String × List String)) : Except String CsvDataset := do
  let _ ← validate_necessary_parameters (columns.map Prod.fst) "CSV file"
  let rawTime ← pyGet columns ctdparams.TIME
  let time ← exceptMapList (fun s =>
      match parseTimestampMicro s with
      | some t => Except.ok t
      | none => Except.error "ValueError: time data does not match the format") rawTime
  let _ ← exceptMapList (fun kv =>
      if (kv.1 != ctdparams.TIME) && hasKey default_mappings kv.1 then floatColumn kv.2
      else Except.ok []) columns
  let depthRaw ← pyGet columns ctdparams.DEPTH
  let depth ← floatColumn depthRaw
  let latRaw ← pyGet columns ctdparams.LATITUDE
  let lat ← floatColumn latRaw
  let lat0 ← listFirst lat
  let lonRaw ← pyGet columns ctdparams.LONGITUDE
  let lon ← floatColumn lonRaw
  let lon0 ← listFirst lon
  Except.ok ⟨time, depth, lat0, lon0, columns.map Prod.fst⟩

/-- A successful Except bind factors into successful parts. -/
theorem exbind_ok {α β : Type} {e : Except String α} {f : α → Except String β} {b : β}
    (h : Bind.bind e f = Except.ok b) : ∃ a, e = Except.ok a ∧ f a = Except.ok b := by
  cases e with
  | error s =>
    rw [show (Bind.bind (Except.error s) f : Except String β) = Except.error s from rfl] at h
    exact Except.noConfusion h
  | ok a => exact ⟨a, rfl, h⟩

/-- Successful dict subscription certifies key membership. -/
theorem pyGet_ok_hasKey {α : Type} (d : List (String × α)) (k : String) (v : α)
    (h : pyGet d k = Except.ok v) : hasKey d k = true := by
  unfold hasKey
  cases hl : pyLookup d k with
  | none =>
    unfold pyGet at h
    rw [hl] at h
    exact Except.noConfusion h
  | some w => rfl

/-- A successful CSV read certifies that the depth, latitude and longitude
columns were all present. -/
theorem csvRead_ok_keys (columns : List (String × List String)) (ds : CsvDataset)
    (h : csvRead columns = Except.ok ds) :
    hasKey columns ctdparams.DEPTH = true ∧ hasKey columns ctdparams.LATITUDE = true ∧
      hasKey columns ctdparams.LONGITUDE = true := by
  unfold csvRead at h
  obtain ⟨_, _, h⟩ := exbind_ok h
  obtain ⟨_, _, h⟩ := exbind_ok h
  obtain ⟨_, _, h⟩ := exbind_ok h
  obtain ⟨_, _, h⟩ := exbind_ok h
  obtain ⟨_, hdep, h⟩ := exbind_ok h
  obtain ⟨_, _, h⟩ := exbind_ok h
  obtain ⟨_, hlat, h⟩ := exbind_ok h
  obtain ⟨_, _, h⟩ := exbind_ok h
  obtain ⟨_, _, h⟩ := exbind_ok h
  obtain ⟨_, hlon, _⟩ := exbind_ok h
  exact ⟨pyGet_ok_hasKey _ _ _ hdep, pyGet_ok_hasKey _ _ _ hlat,
    pyGet_ok_hasKey _ _ _ hlon⟩

/-- C10: a CSV input that lacks a depth, latitude or longitude column never
yields a dataset: construction fails at the dict subscriptions feeding the
dataset template and nothing is stored or exposed. -/
theorem c10_csv_missing_geo_column_fails (columns : List (String × List String))
    (h : hasKey columns ctdparams.DEPTH = false ∨
      hasKey columns ctdparams.LATITUDE = false ∨
      hasKey columns ctdparams.LONGITUDE = false) :
    ∀ ds, csvRead columns ≠ Except.ok ds := by
  intro ds hok
  obtain ⟨hd, hl, hlon⟩ := csvRead_ok_keys columns ds hok
  rcases h with h | h | h <;> simp_all

/-- C10 witness: a CSV with time and pressure columns only, which passes the
required-parameter validation, fails with KeyError at the missing depth
subscription and in particular yields no dataset. -/
theorem c10_witness :
    csvRead [(ctdparams.TIME, ["2023-01-01 00:00:00.0"]),
        (ctdparams.PRESSURE, ["10.0"])] = Except.error "KeyError: depth" ∧
    csvRead [(ctdparams.TIME, ["2023-01-01 00:00:00.0"]),
        (ctdparams.PRESSURE, ["10.0"])] ≠ Except.ok ⟨[], [], 0, 0, []⟩ :=
  ⟨by rfl, c10_csv_missing_geo_column_fails _ (Or.inl (by decide)) ⟨[], [], 0, 0, []⟩⟩

/-- Lowercasing of a variable name, the case-insensitivity device of
AbstractReader._rename_xarray_parameters. -/
def lowerStr (s : String) : String :=
  ⟨s.data.map Char.toLower⟩

/-- The variable owning a lowercased name in ds_vars_lower: the dict
comprehension maps each lowercased variable name to its variable, with later
entries overwriting earlier ones, so the last such variable wins. -/
def lowerOwner (vars : List String) (s : String) : Option String :=
  (vars.filter (fun v => lowerStr v == s)).getLast?

/-- Membership of a lowercased name among the lowercased variable names. -/
def hasLowerVar (vars : List String) (s : String) : Bool :=
  vars.any (fun v => lowerStr v == s)

/-- One registry entry of the rename-dict construction in
_rename_xarray_parameters: when the standard name is not already a variable,
the first alias whose lowercase form occurs among the lowercased variable
names contributes a rename of its owning variable to the standard name, a
Python dict assignment that overwrites an earlier rename of the same
variable. -/
def rdStep (vars : List String) (rd : List (String × String)) (kv : String × List String) :
    List (String × String) :=
  if kv.1 ∈ vars then rd
  else
    match kv.2.find? (fun a => hasLowerVar vars (lowerStr a)) with
    | some a =>
      match lowerOwner vars (lowerStr a) with
      | some src => upsertAttr rd src kv.1
      | none => rd
    | none => rd

/-- The rename dict of _rename_xarray_parameters, built from the full
variable list once, before any renaming happens. -/
def buildRenameDict (mappings : List (String × List String)) (vars : List String) :
    List (String × String) :=
  mappings.foldl (rdStep vars) []

/-- Embedding of _rename_xarray_parameters on variable names: the rename dict
is applied simultaneously by ds.rename. Its targets are distinct registry
keys absent from the variables, so the xarray conflict error cannot fire. -/
def renameParameters (mappings : List (String × List String)) (vars : List String) :
    List String :=
  vars.map (fun v => (pyLookup (buildRenameDict mappings vars) v).getD v)

/-- One entry of the caller-override rename loop in
_perform_default_postprocessing: when the override value names a variable,
that variable is renamed to the override key, xarray raising when the key
already names a different variable. -/
def applyMappingStep (vs : List String) (kv : String × String) : Except String (List String) :=
  if kv.2 ∈ vs then
    if kv.1 = kv.2 then Except.ok vs
    else if kv.1 ∈ vs then
      Except.error "ValueError: rename target conflicts with existing name"
    else Except.ok (vs.map (fun x => if x = kv.2 then kv.1 else x))
  else Except.ok vs

/-- The caller-override rename loop, one ds.rename per mapping item in
insertion order. -/
def applyMappingOverride (mapping : List (String × String)) (vars : List String) :
    Except String (List String) :=
  mapping.foldlM applyMappingStep vars

/-- The caller-override stage of _perform_default_postprocessing: the rename
loop runs only when a mapping was supplied. -/
def overrideStage (mapping : Option (List (String × String))) (vars : List String) :
    Except String (List String) :=
  match mapping with
  | none => Except.ok vars
  | some m => applyMappingOverride m vars

/-- Embedding of _perform_default_postprocessing on variable names: the
caller-override renames run first when a mapping was supplied, then the
registry alias renames; the final metadata fill changes no names. -/
def performPostprocessingNames (mapping : Option (List (String × String)))
    (mappings : List (String × List String)) (vars : List String) :
    Except String (List String) :=
  Bind.bind (overrideStage mapping vars)
    (fun vs => Except.ok (renameParameters mappings vs))

/-- An upsert entry is the assigned pair or an original entry. -/
theorem mem_upsertAttr (rd : List (String × String)) (k v : String)
    (e : String × String) (h : e ∈ upsertAttr rd k v) : e = (k, v) ∨ e ∈ rd := by
  induction rd with
  | nil =>
    simp only [upsertAttr] at h
    rcases List.mem_singleton.mp h with rfl
    exact Or.inl rfl
  | cons p t ih =>
    simp only [upsertAttr] at h
    by_cases hp : p.1 = k
    · rw [if_pos hp] at h
      rcases List.mem_cons.mp h with rfl | h
      · exact Or.inl rfl
      · exact Or.inr (List.mem_cons_of_mem _ h)
    · rw [if_neg hp] at h
      rcases List.mem_cons.mp h with rfl | h
      · exact Or.inr (List.mem_cons_self _ _)
      · rcases ih h with h | h
        · exact Or.inl h
        · exact Or.inr (List.mem_cons_of_mem _ h)

/-- A successful lookup certifies an entry. -/
theorem pyLookup_mem {α : Type} (l : List (String × α)) (k : String) (v : α)
    (h : pyLookup l k = some v) : (k, v) ∈ l := by
  induction l with
  | nil => exact absurd h (by simp [pyLookup])
  | cons p t ih =>
    simp only [pyLookup] at h
    by_cases hp : p.1 = k
    · rw [if_pos hp] at h
      have : p = (k, v) := by
        obtain ⟨p1, p2⟩ := p
        simp only at hp
        injection h with h2
        simp only at h2
        simp [hp, h2]
      rw [← this]
      exact List.mem_cons_self _ _
    · rw [if_neg hp] at h
      exact List.mem_cons_of_mem _ (ih h)

/-- A defined lower owner is a variable with that lowercase form. -/
theorem lowerOwner_some (vars : List String) (s : String) (src : String)
    (h : lowerOwner vars s = some src) : src ∈ vars ∧ lowerStr src = s := by
  have hmem := List.mem_of_mem_getLast? h
  have := List.mem_filter.mp hmem
  exact ⟨this.1, by simpa using this.2⟩

/-- A present lowercase form has a defined owner. -/
theorem hasLowerVar_owner (vars : List String) (s : String)
    (h : hasLowerVar vars s = true) : ∃ src, lowerOwner vars s = some src := by
  unfold hasLowerVar at h
  obtain ⟨v, hv, hvs⟩ := List.any_eq_true.mp h
  cases ho : lowerOwner vars s with
  | some src => exact ⟨src, rfl⟩
  | none =>
    unfold lowerOwner at ho
    rw [List.getLast?_eq_none_iff] at ho
    have : v ∈ List.filter (fun v => lowerStr v == s) vars := List.mem_filter.mpr ⟨hv, hvs⟩
    rw [ho] at this
    exact absurd this (List.not_mem_nil v)

/-- Characterization of rename-dict entries: every entry renames a variable
whose lowercase form matches an alias of a registry key that is absent from
the variables, to that key. -/
theorem buildRenameDict_entry_aux (vars : List String) :
    ∀ (ms : List (String × List String)) (rd0 : List (String × String)) (e : String × String),
      e ∈ ms.foldl (rdStep vars) rd0 →
      e ∈ rd0 ∨ ∃ q ∈ ms, e.2 = q.1 ∧ q.1 ∉ vars ∧ e.1 ∈ vars ∧
        ∃ a ∈ q.2, lowerStr e.1 = lowerStr a := by
  intro ms
  induction ms with
  | nil =>
    intro rd0 e h
    exact Or.inl h
  | cons q t ih =>
    intro rd0 e h
    rw [List.foldl_cons] at h
    rcases ih _ e h with h1 | ⟨q2, hq2, hrest⟩
    · unfold rdStep at h1
      by_cases hqv : q.1 ∈ vars
      · rw [if_pos hqv] at h1
        exact Or.inl h1
      · rw [if_neg hqv] at h1
        cases hf : q.2.find? (fun a => hasLowerVar vars (lowerStr a)) with
        | none =>
          rw [hf] at h1
          exact Or.inl h1
        | some a =>
          rw [hf] at h1
          dsimp only at h1
          cases ho : lowerOwner vars (lowerStr a) with
          | none =>
            rw [ho] at h1
            exact Or.inl h1
          | some src =>
            rw [ho] at h1
            dsimp only at h1
            rcases mem_upsertAttr rd0 src q.1 e h1 with rfl | h1
            · right
              exact ⟨q, List.mem_cons_self _ _, rfl, hqv,
                (lowerOwner_some vars _ src ho).1, a, List.mem_of_find?_eq_some hf,
                (lowerOwner_some vars _ src ho).2⟩
            · exact Or.inl h1
    · exact Or.inr ⟨q2, List.mem_cons_of_mem _ hq2, hrest⟩

/-- Entry characterization for the full rename dict. -/
theorem buildRenameDict_entry (mappings : List (String × List String)) (vars : List String)
    (e : String × String) (h : e ∈ buildRenameDict mappings vars) :
    ∃ q ∈ mappings, e.2 = q.1 ∧ q.1 ∉ vars ∧ e.1 ∈ vars ∧
      ∃ a ∈ q.2, lowerStr e.1 = lowerStr a := by
  rcases buildRenameDict_entry_aux vars mappings [] e h with h | h
  · exact absurd h (List.not_mem_nil e)
  · exact h

/-- When no registry key is, case-insensitively, an alias of any key, a
registry key is never a rename source. -/
theorem std_lookup_none (mappings : List (String × List String)) (vars : List String)
    (h1 : ∀ p ∈ mappings, ∀ q ∈ mappings, ∀ a ∈ q.2, lowerStr p.1 ≠ lowerStr a)
    (p : String × List String) (hp : p ∈ mappings) :
    pyLookup (buildRenameDict mappings vars) p.1 = none := by
  cases hl : pyLookup (buildRenameDict mappings vars) p.1 with
  | none => rfl
  | some t =>
    obtain ⟨q, hq, -, -, -, a, ha, hla⟩ :=
      buildRenameDict_entry mappings vars (p.1, t) (pyLookup_mem _ _ _ hl)
    exact absurd hla (h1 p hp q hq a ha)

/-- A variable named like a registry key survives the registry rename. -/
theorem renameParameters_mem_std (mappings : List (String × List String)) (vars : List String)
    (h1 : ∀ p ∈ mappings, ∀ q ∈ mappings, ∀ a ∈ q.2, lowerStr p.1 ≠ lowerStr a)
    (p : String × List String) (hp : p ∈ mappings) (hv : p.1 ∈ vars) :
    p.1 ∈ renameParameters mappings vars := by
  unfold renameParameters
  have hx : (pyLookup (buildRenameDict mappings vars) p.1).getD p.1 = p.1 := by
    rw [std_lookup_none mappings vars h1 p hp]
    rfl
  have hm := List.mem_map_of_mem
    (fun v => (pyLookup (buildRenameDict mappings vars) v).getD v) hv
  dsimp only at hm
  rwa [hx] at hm

/-- Every name after the registry rename is an untouched variable or a
registry key. -/
theorem renameParameters_mem (mappings : List (String × List String)) (vars : List String)
    (x : String) (h : x ∈ renameParameters mappings vars) :
    x ∈ vars ∨ ∃ q ∈ mappings, x = q.1 := by
  unfold renameParameters at h
  obtain ⟨v, hv, hfx⟩ := List.mem_map.mp h
  cases hl : pyLookup (buildRenameDict mappings vars) v with
  | none =>
    rw [hl] at hfx
    left
    rw [← hfx]
    exact hv
  | some t =>
    rw [hl] at hfx
    obtain ⟨q, hq, he, -, -, -⟩ :=
      buildRenameDict_entry mappings vars (v, t) (pyLookup_mem _ _ _ hl)
    right
    exact ⟨q, hq, by rw [← hfx]; exact he⟩

/-- A rename-dict binding survives the remaining fold as long as no later
registry entry can claim the same source variable. -/
theorem rd_preserve (vars : List String) (src t : String) :
    ∀ (ms : List (String × List String)) (rd : List (String × String)),
      pyLookup rd src = some t →
      (∀ q ∈ ms, ∀ a ∈ q.2, lowerStr src ≠ lowerStr a) →
      pyLookup (ms.foldl (rdStep vars) rd) src = some t := by
  intro ms
  induction ms with
  | nil =>
    intro rd h _
    exact h
  | cons q ms2 ih =>
    intro rd h hna
    rw [List.foldl_cons]
    refine ih _ ?_ (fun q2 hq2 => hna q2 (List.mem_cons_of_mem _ hq2))
    unfold rdStep
    by_cases hqv : q.1 ∈ vars
    · rw [if_pos hqv]
      exact h
    · rw [if_neg hqv]
      cases hf : q.2.find? (fun a => hasLowerVar vars (lowerStr a)) with
      | none => exact h
      | some a =>
        dsimp only
        cases ho : lowerOwner vars (lowerStr a) with
        | none => exact h
        | some src2 =>
          dsimp only
          have hsrc2 := (lowerOwner_some vars _ src2 ho).2
          have hne : src ≠ src2 := by
            intro he
            exact hna q (List.mem_cons_self _ _) a (List.mem_of_find?_eq_some hf)
              (by rw [he]; exact hsrc2)
          rw [pyLookup_upsert_ne rd src2 q.1 src hne]
          exact h

/-- When a registry entry fires, the chosen source variable is bound to that
registry key in the final rename dict: with distinct keys and cross-disjoint
alias lists no later entry overwrites the binding. -/
theorem rd_lookup_choose (mappings : List (String × List String)) (vars : List String)
    (h2 : ∀ p ∈ mappings, ∀ q ∈ mappings, p.1 ≠ q.1 →
        ∀ a ∈ p.2, ∀ b ∈ q.2, lowerStr a ≠ lowerStr b)
    (h3 : (mappings.map Prod.fst).Nodup)
    (q : String × List String) (hq : q ∈ mappings) (hqv : q.1 ∉ vars)
    (a : String) (hf : q.2.find? (fun a => hasLowerVar vars (lowerStr a)) = some a)
    (src : String) (ho : lowerOwner vars (lowerStr a) = some src) :
    pyLookup (buildRenameDict mappings vars) src = some q.1 := by
  obtain ⟨l1, l2, hsplit⟩ := List.append_of_mem hq
  subst hsplit
  unfold buildRenameDict
  rw [List.foldl_append, List.foldl_cons]
  have hstep : pyLookup (rdStep vars (l1.foldl (rdStep vars) []) q) src = some q.1 := by
    unfold rdStep
    rw [if_neg hqv, hf]
    dsimp only
    rw [ho]
    dsimp only
    exact pyLookup_upsert_self _ src q.1
  refine rd_preserve vars src q.1 l2 _ hstep ?_
  intro q2 hq2 a2 ha2
  have hsrc : lowerStr src = lowerStr a := (lowerOwner_some vars _ src ho).2
  have hkeyne : q.1 ≠ q2.1 := by
    intro he
    rw [List.map_append, List.map_cons] at h3
    have h3r := (List.nodup_append.mp h3).2.1
    have hq1notin : q.1 ∉ List.map Prod.fst l2 := (List.nodup_cons.mp h3r).1
    exact hq1notin (he ▸ List.mem_map_of_mem Prod.fst hq2)
  have hqmem : q ∈ l1 ++ q :: l2 := List.mem_append_right l1 (List.mem_cons_self _ _)
  have hq2mem : q2 ∈ l1 ++ q :: l2 :=
    List.mem_append_right l1 (List.mem_cons_of_mem _ hq2)
  have hne := h2 q hqmem q2 hq2mem hkeyne a (List.mem_of_find?_eq_some hf) a2 ha2
  rw [hsrc]
  exact hne

/-- After one registry rename, every registry entry is inert: its key is
already a variable or none of its aliases matches any remaining name. -/
theorem renameParameters_second_skip (mappings : List (String × List String))
    (vars : List String)
    (h1 : ∀ p ∈ mappings, ∀ q ∈ mappings, ∀ a ∈ q.2, lowerStr p.1 ≠ lowerStr a)
    (h2 : ∀ p ∈ mappings, ∀ q ∈ mappings, p.1 ≠ q.1 →
        ∀ a ∈ p.2, ∀ b ∈ q.2, lowerStr a ≠ lowerStr b)
    (h3 : (mappings.map Prod.fst).Nodup) :
    ∀ q ∈ mappings, q.1 ∈ renameParameters mappings vars ∨
      ∀ a ∈ q.2, hasLowerVar (renameParameters mappings vars) (lowerStr a) = false := by
  intro q hq
  by_cases hqv : q.1 ∈ vars
  · exact Or.inl (renameParameters_mem_std mappings vars h1 q hq hqv)
  · cases hf : q.2.find? (fun a => hasLowerVar vars (lowerStr a)) with
    | some a =>
      left
      have hh := List.find?_some hf
      obtain ⟨src, ho⟩ := hasLowerVar_owner vars _ hh
      have hlk := rd_lookup_choose mappings vars h2 h3 q hq hqv a hf src ho
      have hsrcv : src ∈ vars := (lowerOwner_some vars _ src ho).1
      unfold renameParameters
      have hm := List.mem_map_of_mem
        (fun v => (pyLookup (buildRenameDict mappings vars) v).getD v) hsrcv
      dsimp only at hm
      have hval : (pyLookup (buildRenameDict mappings vars) src).getD src = q.1 := by
        rw [hlk]
        rfl
      rwa [hval] at hm
    | none =>
      right
      intro a ha
      have hnone : ∀ b ∈ q.2, ¬ hasLowerVar vars (lowerStr b) = true :=
        fun b hb => by simpa using List.find?_eq_none.mp hf b hb
      cases hha : hasLowerVar (renameParameters mappings vars) (lowerStr a) with
      | false => rfl
      | true =>
        exfalso
        unfold hasLowerVar at hha
        obtain ⟨x, hx, hxa⟩ := List.any_eq_true.mp hha
        have hxa2 : lowerStr x = lowerStr a := by simpa using hxa
        rcases renameParameters_mem mappings vars x hx with hxv | ⟨q2, hq2, rfl⟩
        · refine hnone a ha ?_
          unfold hasLowerVar
          exact List.any_eq_true.mpr ⟨x, hxv, by simpa using hxa2⟩
        · exact h1 q2 hq2 q hq a ha hxa2

/-- When every registry entry is inert, the rename dict is empty. -/
theorem buildRenameDict_empty (mappings : List (String × List String)) (vs : List String)
    (h : ∀ q ∈ mappings, q.1 ∈ vs ∨ ∀ a ∈ q.2, hasLowerVar vs (lowerStr a) = false) :
    buildRenameDict mappings vs = [] := by
  unfold buildRenameDict
  have hgen : ∀ (ms : List (String × List String)),
      (∀ q ∈ ms, q.1 ∈ vs ∨ ∀ a ∈ q.2, hasLowerVar vs (lowerStr a) = false) →
      ∀ rd, ms.foldl (rdStep vs) rd = rd := by
    intro ms
    induction ms with
    | nil =>
      intro _ rd
      rfl
    | cons q t ih =>
      intro hall rd
      rw [List.foldl_cons]
      have hstep : rdStep vs rd q = rd := by
        unfold rdStep
        by_cases hin : q.1 ∈ vs
        · rw [if_pos hin]
        · rw [if_neg hin]
          rcases hall q (List.mem_cons_self _ _) with hin2 | hno
          · exact absurd hin2 hin
          · have hfn : q.2.find? (fun a => hasLowerVar vs (lowerStr a)) = none :=
              List.find?_eq_none.mpr (fun a ha => by simp [hno a ha])
            rw [hfn]
      rw [hstep]
      exact ih (fun q2 hq2 => hall q2 (List.mem_cons_of_mem _ hq2)) rd
  exact hgen mappings h []

/-- An empty rename dict makes the registry rename the identity. -/
theorem renameParameters_id (mappings : List (String × List String)) (vs : List String)
    (h : buildRenameDict mappings vs = []) :
    renameParameters mappings vs = vs := by
  unfold renameParameters
  rw [h]
  simp [pyLookup]

/-- Names after one override step are old names or the override key. -/
theorem applyMappingStep_ok_mem (vs : List String) (kv : String × String)
    (vs2 : List String) (h : applyMappingStep vs kv = Except.ok vs2)
    (x : String) (hx : x ∈ vs2) : x ∈ vs ∨ x = kv.1 := by
  unfold applyMappingStep at h
  by_cases h2 : kv.2 ∈ vs
  · rw [if_pos h2] at h
    by_cases he : kv.1 = kv.2
    · rw [if_pos he] at h
      injection h with h
      subst h
      exact Or.inl hx
    · rw [if_neg he] at h
      by_cases hk : kv.1 ∈ vs
      · rw [if_pos hk] at h
        exact Except.noConfusion h
      · rw [if_neg hk] at h
        injection h with h
        subst h
        obtain ⟨v, hv, hfv⟩ := List.mem_map.mp hx
        by_cases hveq : v = kv.2
        · rw [if_pos hveq] at hfv
          exact Or.inr hfv.symm
        · rw [if_neg hveq] at hfv
          exact Or.inl (hfv ▸ hv)
  · rw [if_neg h2] at h
    injection h with h
    subst h
    exact Or.inl hx

/-- After a successful override step with distinct key and value, the value
no longer names a variable. -/
theorem applyMappingStep_value_gone (vs : List String) (kv : String × String)
    (vs2 : List String) (h : applyMappingStep vs kv = Except.ok vs2)
    (hne : kv.1 ≠ kv.2) : kv.2 ∉ vs2 := by
  unfold applyMappingStep at h
  by_cases h2 : kv.2 ∈ vs
  · rw [if_pos h2, if_neg hne] at h
    by_cases hk : kv.1 ∈ vs
    · rw [if_pos hk] at h
      exact Except.noConfusion h
    · rw [if_neg hk] at h
      injection h with h
      subst h
      intro hmem
      obtain ⟨v, hv, hfv⟩ := List.mem_map.mp hmem
      by_cases hveq : v = kv.2
      · rw [if_pos hveq] at hfv
        exact hne hfv
      · rw [if_neg hveq] at hfv
        exact hveq hfv
  · rw [if_neg h2] at h
    injection h with h
    subst h
    exact h2

/-- An absent name other than the override key stays absent. -/
theorem applyMappingStep_preserve_absent (vs : List String) (kv : String × String)
    (vs2 : List String) (h : applyMappingStep vs kv = Except.ok vs2)
    (v : String) (hv : v ∉ vs) (hvk : v ≠ kv.1) : v ∉ vs2 := by
  intro hmem
  rcases applyMappingStep_ok_mem vs kv vs2 h v hmem with hm | hm
  · exact hv hm
  · exact hvk hm

/-- A present name other than the override value stays present. -/
theorem applyMappingStep_preserve_mem (vs : List String) (kv : String × String)
    (vs2 : List String) (h : applyMappingStep vs kv = Except.ok vs2)
    (v : String) (hv : v ∈ vs) (hne : v ≠ kv.2) : v ∈ vs2 := by
  unfold applyMappingStep at h
  by_cases h2 : kv.2 ∈ vs
  · rw [if_pos h2] at h
    by_cases he : kv.1 = kv.2
    · rw [if_pos he] at h
      injection h with h
      subst h
      exact hv
    · rw [if_neg he] at h
      by_cases hk : kv.1 ∈ vs
      · rw [if_pos hk] at h
        exact Except.noConfusion h
      · rw [if_neg hk] at h
        injection h with h
        subst h
        have hm := List.mem_map_of_mem (fun x => if x = kv.2 then kv.1 else x) hv
        dsimp only at hm
        rwa [if_neg hne] at hm
  · rw [if_neg h2] at h
    injection h with h
    subst h
    exact hv

/-- Names after the whole override pass are old names or override keys. -/
theorem applyMappingOverride_ok_mem (m : List (String × String)) :
    ∀ (vars r : List String), applyMappingOverride m vars = Except.ok r →
      ∀ x ∈ r, x ∈ vars ∨ ∃ kv ∈ m, x = kv.1 := by
  induction m with
  | nil =>
    intro vars r h x hx
    injection h with h
    subst h
    exact Or.inl hx
  | cons kv t ih =>
    intro vars r h x hx
    obtain ⟨vs1, hstep, hrest⟩ := exbind_ok h
    rcases ih vs1 r hrest x hx with hx1 | ⟨kv2, hkv2, hx2⟩
    · rcases applyMappingStep_ok_mem vars kv vs1 hstep x hx1 with hm | hm
      · exact Or.inl hm
      · exact Or.inr ⟨kv, List.mem_cons_self _ _, hm⟩
    · exact Or.inr ⟨kv2, List.mem_cons_of_mem _ hkv2, hx2⟩

/-- An absent name that is no override key stays absent through the pass. -/
theorem applyMappingOverride_preserve_absent (m : List (String × String)) :
    ∀ (vars r : List String) (v : String), applyMappingOverride m vars = Except.ok r →
      v ∉ vars → (∀ kv ∈ m, v ≠ kv.1) → v ∉ r := by
  induction m with
  | nil =>
    intro vars r v h hv _
    injection h with h
    subst h
    exact hv
  | cons kv t ih =>
    intro vars r v h hv hk
    obtain ⟨vs1, hstep, hrest⟩ := exbind_ok h
    exact ih vs1 r v hrest
      (applyMappingStep_preserve_absent vars kv vs1 hstep v hv (hk kv (List.mem_cons_self _ _)))
      (fun kv2 hkv2 => hk kv2 (List.mem_cons_of_mem _ hkv2))

/-- A present name that is no override value stays present through the pass. -/
theorem applyMappingOverride_preserve_mem (m : List (String × String)) :
    ∀ (vars r : List String) (v : String), applyMappingOverride m vars = Except.ok r →
      v ∈ vars → (∀ kv ∈ m, v ≠ kv.2) → v ∈ r := by
  induction m with
  | nil =>
    intro vars r v h hv _
    injection h with h
    subst h
    exact hv
  | cons kv t ih =>
    intro vars r v h hv hk
    obtain ⟨vs1, hstep, hrest⟩ := exbind_ok h
    exact ih vs1 r v hrest
      (applyMappingStep_preserve_mem vars kv vs1 hstep v hv (hk kv (List.mem_cons_self _ _)))
      (fun kv2 hkv2 => hk kv2 (List.mem_cons_of_mem _ hkv2))

/-- When no override value is an override key, no override value survives the
pass. -/
theorem applyMappingOverride_value_gone (m : List (String × String))
    (hkeys : ∀ kv ∈ m, ∀ kv2 ∈ m, kv.2 ≠ kv2.1) :
    ∀ (vars r : List String), applyMappingOverride m vars = Except.ok r →
      ∀ kv ∈ m, kv.2 ∉ r := by
  induction m with
  | nil =>
    intro vars r _ kv hkv
    exact absurd hkv (List.not_mem_nil kv)
  | cons kv0 t ih =>
    intro vars r h kv hkv
    obtain ⟨vs1, hstep, hrest⟩ := exbind_ok h
    rcases List.mem_cons.mp hkv with rfl | hkvt
    · have hne : kv.1 ≠ kv.2 :=
        (hkeys kv (List.mem_cons_self _ _) kv (List.mem_cons_self _ _)).symm
      have habs : kv.2 ∉ vs1 := applyMappingStep_value_gone vars kv vs1 hstep hne
      exact applyMappingOverride_preserve_absent t vs1 r kv.2 hrest habs
        (fun kv2 hkv2 => hkeys kv (List.mem_cons_self _ _) kv2 (List.mem_cons_of_mem _ hkv2))
    · exact ih
        (fun a ha b hb => hkeys a (List.mem_cons_of_mem _ ha) b (List.mem_cons_of_mem _ hb))
        vs1 r hrest kv hkvt

/-- The override pass is the identity when no override value names a
variable. -/
theorem applyMappingOverride_id (m : List (String × String)) :
    ∀ (vs : List String), (∀ kv ∈ m, kv.2 ∉ vs) →
      applyMappingOverride m vs = Except.ok vs := by
  induction m with
  | nil =>
    intro vs _
    rfl
  | cons kv t ih =>
    intro vs habs
    have hstep : applyMappingStep vs kv = Except.ok vs := by
      unfold applyMappingStep
      rw [if_neg (habs kv (List.mem_cons_self _ _))]
    show Bind.bind (applyMappingStep vs kv)
        (fun b => List.foldlM applyMappingStep b t) = Except.ok vs
    rw [hstep]
    exact ih vs (fun kv2 h2 => habs kv2 (List.mem_cons_of_mem _ h2))

/-- A successful post-processing pass factors into a successful override pass
followed by the registry rename. -/
theorem performPostprocessingNames_ok (mapping : Option (List (String × String)))
    (mappings : List (String × List String)) (vars r : List String)
    (h : performPostprocessingNames mapping mappings vars = Except.ok r) :
    ∃ vs0, overrideStage mapping vars = Except.ok vs0 ∧
      r = renameParameters mappings vs0 := by
  unfold performPostprocessingNames at h
  obtain ⟨vs0, hstep, hpure⟩ := exbind_ok h
  injection hpure with hpure
  exact ⟨vs0, hstep, hpure.symm⟩

/-- C8: the generic post-processing pass is idempotent under the registry and
override shape the spec states: registry keys are pairwise distinct and never
aliases, alias lists are case-insensitively disjoint across keys, and caller
overrides map canonical keys to raw source names that are neither override
keys nor registry keys. Then a variable already named like a canonical key
survives the pass unchanged, and running the pass on its own output
reproduces that output exactly. -/
theorem c8_postprocessing_idempotent (mapping : Option (List (String × String)))
    (mappings : List (String × List String)) (vars : List String)
    (h1 : ∀ p ∈ mappings, ∀ q ∈ mappings, ∀ a ∈ q.2, lowerStr p.1 ≠ lowerStr a)
    (h2 : ∀ p ∈ mappings, ∀ q ∈ mappings, p.1 ≠ q.1 →
        ∀ a ∈ p.2, ∀ b ∈ q.2, lowerStr a ≠ lowerStr b)
    (h3 : (mappings.map Prod.fst).Nodup)
    (h4 : ∀ m, mapping = some m → ∀ kv ∈ m,
        (∀ kv2 ∈ m, kv.2 ≠ kv2.1) ∧ (∀ p ∈ mappings, kv.2 ≠ p.1)) :
    (∀ p ∈ mappings, p.1 ∈ vars → ∀ r,
        performPostprocessingNames mapping mappings vars = Except.ok r → p.1 ∈ r) ∧
    (∀ r, performPostprocessingNames mapping mappings vars = Except.ok r →
        performPostprocessingNames mapping mappings r = Except.ok r) := by
  constructor
  · intro p hp hpv r hr
    obtain ⟨vs0, hstep, rfl⟩ := performPostprocessingNames_ok mapping mappings vars r hr
    have hpv0 : p.1 ∈ vs0 := by
      cases mapping with
      | none =>
        injection hstep with hstep
        rwa [← hstep]
      | some m =>
        refine applyMappingOverride_preserve_mem m vars vs0 p.1 hstep hpv ?_
        intro kv hkv he
        exact (h4 m rfl kv hkv).2 p hp he.symm
    exact renameParameters_mem_std mappings vs0 h1 p hp hpv0
  · intro r hr
    obtain ⟨vs0, hstep, rfl⟩ := performPostprocessingNames_ok mapping mappings vars r hr
    have hempty := buildRenameDict_empty mappings (renameParameters mappings vs0)
      (renameParameters_second_skip mappings vs0 h1 h2 h3)
    have hid := renameParameters_id mappings (renameParameters mappings vs0) hempty
    cases mapping with
    | none =>
      show Except.ok (renameParameters mappings (renameParameters mappings vs0)) =
        Except.ok (renameParameters mappings vs0)
      rw [hid]
    | some m =>
      have hov : applyMappingOverride m (renameParameters mappings vs0) =
          Except.ok (renameParameters mappings vs0) := by
        refine applyMappingOverride_id m _ ?_
        intro kv hkv hmem
        rcases renameParameters_mem mappings vs0 kv.2 hmem with hin | ⟨q, hq, he⟩
        · exact applyMappingOverride_value_gone m
            (fun a ha => ((h4 m rfl a ha).1)) vars vs0 hstep kv hkv hin
        · exact (h4 m rfl kv hkv).2 q hq he
      have hbind : performPostprocessingNames (some m) mappings
          (renameParameters mappings vs0) =
          Bind.bind (applyMappingOverride m (renameParameters mappings vs0))
            (fun vs => Except.ok (renameParameters mappings vs)) := rfl
      rw [hbind, hov]

      show Except.ok (renameParameters mappings (renameParameters mappings vs0)) =
        Except.ok (renameParameters mappings vs0)
      rw [hid]

/-- C8 witness: with a registry mapping temperature to the alias Temp and
salinity to SALIN, the pass renames the variable TEMP case-insensitively,
keeps the already canonical salinity unchanged, and a second application of
the pass reproduces the result of the first. -/
theorem c8_postprocessing_idempotent_witness :
    performPostprocessingNames none
        [("temperature", ["Temp", "tv290C"]), ("salinity", ["SALIN"])]
        ["TEMP", "other", "salinity"] =
      Except.ok ["temperature", "other", "salinity"] ∧
    performPostprocessingNames none
        [("temperature", ["Temp", "tv290C"]), ("salinity", ["SALIN"])]
        ["temperature", "other", "salinity"] =
      Except.ok ["temperature", "other", "salinity"] := by
  refine ⟨by rfl, ?_⟩
  exact (c8_postprocessing_idempotent none
      [("temperature", ["Temp", "tv290C"]), ("salinity", ["SALIN"])]
      ["TEMP", "other", "salinity"]
      (by decide) (by decide) (by decide)
      (fun m hm => Option.noConfusion hm)).2
    ["temperature", "other", "salinity"] (by rfl)
